import Mathlib

/-!
Verification of the MTG card scanner front-end (`src/App.jsx`).

The library store, scan cycle and CSV export are shallowly embedded as
Lean functions over explicit state; the scan-loop in-flight gate and its
cooldown are embedded as a discrete-time simulation over tick timestamps.
Quantities are natural numbers (the code only ever writes `1`, `q + 1`,
or `max(0, q + delta)`, so values never go below zero); user-supplied
deltas are integers; timestamps (`Date.now()`) are natural numbers and
the interpolation `${"${data.name}-${Date.now()}"}` is modelled with
`Nat.repr`, the decimal rendering JS uses for integers.
-/

namespace MtgScanner

/-- One library row, as created in `captureFrame`:
`{ name: data.name, quantity: 1, id: ... }`. -/
structure Card where
  name : String
  quantity : Nat
  id : String
deriving DecidableEq

/-- The id generated at creation: `` `${"${data.name}"}-${"${Date.now()}"}` ``. -/
def mkCardId (name : String) (now : Nat) : String :=
  name ++ "-" ++ Nat.repr now

/-- The per-card update applied by `prevLibrary.map` when the matched name
already exists: `card.name === data.name ? { ...card, quantity: card.quantity + 1 } : card`. -/
def bumpCard (name : String) (c : Card) : Card :=
  if c.name = name then { c with quantity := c.quantity + 1 } else c

/-- The `setCardLibrary` updater in `captureFrame`: if an entry with the
matched name exists, increment every entry with that name; otherwise append
a new entry with quantity 1 and id `name-Date.now()`. -/
def recordMatch (name : String) (now : Nat) (lib : List Card) : List Card :=
  match lib.find? (fun c => decide (c.name = name)) with
  | some _ => lib.map (bumpCard name)
  | none => lib ++ [{ name := name, quantity := 1, id := mkCardId name now }]

/-- `updateQuantity(id, delta)`: map the target to
`Math.max(0, card.quantity + delta)`, then `.filter(card => card.quantity > 0)`. -/
def updateQuantity (id : String) (delta : Int) (lib : List Card) : List Card :=
  (lib.map (fun c =>
      if c.id = id then { c with quantity := (max 0 ((c.quantity : Int) + delta)).toNat }
      else c)).filter (fun c => decide (0 < c.quantity))

/-- `removeCard(id)`: `prevLibrary.filter(card => card.id !== id)`. -/
def removeCard (id : String) (lib : List Card) : List Card :=
  lib.filter (fun c => decide (c.id ≠ id))

/-- `headers.join(',')` for `headers = ['Card Name', 'Card ID', 'Quantity']`. -/
def csvHeader : String :=
  String.intercalate "," ["Card Name", "Card ID", "Quantity"]

/-- One CSV data row: `[`"${"${card.name}"}"`, `"${"${card.id}"}"`, card.quantity].join(',')`. -/
def csvRow (c : Card) : String :=
  String.intercalate "," ["\"" ++ c.name ++ "\"", "\"" ++ c.id ++ "\"", Nat.repr c.quantity]

/-- The array `[headers.join(','), ...cardLibrary.map(row)]` built in `exportToCSV`. -/
def csvLines (lib : List Card) : List String :=
  csvHeader :: lib.map csvRow

/-- `csvContent = [...].join('\n')`. -/
def exportToCSV (lib : List Card) : String :=
  String.intercalate "\n" (csvLines lib)

/-- The decoded `/match` response: HTTP status, raw body text, and the
optional `name` field of the JSON payload. -/
structure MatchResponse where
  status : Nat
  body : String
  name : Option String
deriving DecidableEq

/-- `response.ok`: status in the 2xx range. -/
def responseOk (r : MatchResponse) : Bool :=
  decide (200 ≤ r.status ∧ r.status < 300)

/-- The state `captureFrame` reads and writes: the card library and the
current error message. -/
structure ScanState where
  cardLibrary : List Card
  error : Option String
deriving DecidableEq

/-- Observable side effects of one cycle: `dingSound.current.play()` and
`showNotification(...)`. -/
structure SideEffects where
  soundPlayed : Bool
  message : Option String
deriving DecidableEq

/-- A cycle that takes neither side effect. -/
def noEffects : SideEffects :=
  { soundPlayed := false, message := none }

/-- The message thrown on a non-2xx response:
`` `Server error: ${"${response.status}"} - ${"${errorText}"}` ``. -/
def serverErrorMessage (status : Nat) (body : String) : String :=
  "Server error: " ++ Nat.repr status ++ " - " ++ body

/-- One scan cycle of `captureFrame`, after the request resolved to `resp`:
on non-2xx the thrown message is caught and stored via `setError`; on 2xx
with a truthy `data.name` the library is updated and the sound and
toast fire; otherwise nothing happens.  The success path never
writes `error`. -/
def captureFrameCycle (resp : MatchResponse) (now : Nat) (st : ScanState) :
    ScanState × SideEffects :=
  if responseOk resp then
    match resp.name with
    | some n =>
      if n = "" then (st, noEffects)
      else
        ({ st with cardLibrary := recordMatch n now st.cardLibrary },
         { soundPlayed := true, message := some (n ++ " added to library") })
    | none => (st, noEffects)
  else
    ({ st with error := some (serverErrorMessage resp.status resp.body) }, noEffects)

/-- `setInterval(captureFrame, 2500)`. -/
def pollPeriodMs : Nat := 2500

/-- `setTimeout(() => setIsRequestInFlight(false), 3000)` in the `finally`. -/
def cooldownMs : Nat := 3000

/-- One issued match request: the tick time at which it was submitted and
the time at which it settled (resolved or rejected). -/
structure MatchRequest where
  start : Nat
  settle : Nat
deriving DecidableEq

/-- Discrete simulation of the in-flight gate.  `gate = some c` means
`isRequestInFlight` is set and is scheduled to clear at time `c`.  Each
tick either returns immediately (gate set) or submits a request; the
request issued at `t` settles at `t + dur k` and the `finally` clears the
gate `cooldownMs` later.  `dur k` is the network duration of the `k`-th
request.  Returns the list of issued requests. -/
def scanRun (dur : Nat → Nat) : Option Nat → Nat → List Nat → List MatchRequest
  | _, _, [] => []
  | some c, k, t :: ts =>
    if t < c then scanRun dur (some c) k ts
    else ⟨t, t + dur k⟩ :: scanRun dur (some (t + dur k + cooldownMs)) (k + 1) ts
  | none, k, t :: ts =>
    ⟨t, t + dur k⟩ :: scanRun dur (some (t + dur k + cooldownMs)) (k + 1) ts

/-- A user-level operation on the library store. -/
inductive LibOp where
  | record (name : String) (now : Nat)
  | adjust (id : String) (delta : Int)
  | drop (id : String)
deriving DecidableEq

/-- Apply one operation to the library. -/
def applyOp (lib : List Card) : LibOp → List Card
  | .record name now => recordMatch name now lib
  | .adjust id delta => updateQuantity id delta lib
  | .drop id => removeCard id lib

/-- Run a sequence of operations from the initially empty library. -/
def runOps (ops : List LibOp) : List Card :=
  ops.foldl applyOp []

/-- Fold a sequence of `(name, now)` matches over a library. -/
def runMatches (l : List (String × Nat)) (lib : List Card) : List Card :=
  l.foldl (fun acc p => recordMatch p.1 p.2 acc) lib

/-- Quantity recorded for name `s`: the quantity of the first entry with
that name, `0` when absent. -/
def qtyOf (lib : List Card) (s : String) : Nat :=
  match lib.find? (fun c => decide (c.name = s)) with
  | some c => c.quantity
  | none => 0

/-- C5: exporting a library yields one header line `Card Name,Card ID,Quantity`
followed by one line per entry in collection order, the name and id fields
double-quoted and the quantity unquoted, all joined by newlines; on
`[{name:"Shock", id:"Shock-1", quantity:2}, {name:"Bolt", id:"Bolt-2", quantity:1}]`
it yields the header, then `"Shock","Shock-1",2`, then `"Bolt","Bolt-2",1`. -/
theorem exportToCSV_spec :
    csvLines [⟨"Shock", 2, "Shock-1"⟩, ⟨"Bolt", 1, "Bolt-2"⟩] =
      ["Card Name,Card ID,Quantity", "\"Shock\",\"Shock-1\",2", "\"Bolt\",\"Bolt-2\",1"] ∧
    exportToCSV [⟨"Shock", 2, "Shock-1"⟩, ⟨"Bolt", 1, "Bolt-2"⟩] =
      "Card Name,Card ID,Quantity\n\"Shock\",\"Shock-1\",2\n\"Bolt\",\"Bolt-2\",1" ∧
    (∀ lib : List Card, csvLines lib = csvHeader :: lib.map csvRow) ∧
    (∀ lib : List Card, (csvLines lib).length = lib.length + 1) ∧
    (∀ c : Card,
      csvRow c = ("\"" ++ c.name ++ "\"") ++ "," ++ ("\"" ++ c.id ++ "\"") ++ "," ++
        Nat.repr c.quantity) := by
  refine ⟨by decide, by decide, fun lib => rfl, fun lib => by simp [csvLines], fun c => rfl⟩

/-- C4: on a non-2xx response the cycle stores an error message that contains
the HTTP status and the response body verbatim, produces no side effects, and
leaves the library unchanged. -/
theorem serverError_cycle_spec (resp : MatchResponse) (now : Nat) (st : ScanState)
    (h : responseOk resp = false) :
    (captureFrameCycle resp now st).1.cardLibrary = st.cardLibrary ∧
    (captureFrameCycle resp now st).1.error =
      some (serverErrorMessage resp.status resp.body) ∧
    (∃ a b : String, serverErrorMessage resp.status resp.body = a ++ resp.body ++ b) ∧
    (∃ a b : String,
      serverErrorMessage resp.status resp.body = a ++ Nat.repr resp.status ++ b) ∧
    (captureFrameCycle resp now st).2 = noEffects := by
  refine ⟨?_, ?_, ?_, ?_, ?_⟩
  · simp [captureFrameCycle, h]
  · simp [captureFrameCycle, h]
  · exact ⟨"Server error: " ++ Nat.repr resp.status ++ " - ", "",
      by simp [serverErrorMessage]⟩
  · exact ⟨"Server error: ", " - " ++ resp.body,
      by simp [serverErrorMessage, String.append_assoc]⟩
  · simp [captureFrameCycle, h]

/-- Witness for C4 at status 500 with body `"overloaded"`. -/
theorem serverError_cycle_spec_witness :
    (captureFrameCycle ⟨500, "overloaded", none⟩ 0
        { cardLibrary := [], error := none }).1.error =
      some (serverErrorMessage 500 "overloaded") :=
  (serverError_cycle_spec ⟨500, "overloaded", none⟩ 0
    { cardLibrary := [], error := none } (by decide)).2.1

/-- C8: a 2xx cycle whose payload has no `name` field changes nothing: no
library mutation, no notification, no sound, no stored error. -/
theorem absentName_cycle_noop (resp : MatchResponse) (now : Nat) (st : ScanState)
    (hok : responseOk resp = true) (hname : resp.name = none) :
    captureFrameCycle resp now st = (st, noEffects) := by
  simp [captureFrameCycle, hok, hname]

/-- Witness for C8 on a concrete 200 response without a name. -/
theorem absentName_cycle_noop_witness :
    captureFrameCycle ⟨200, "{}", none⟩ 5
        { cardLibrary := [], error := some "old" } =
      ({ cardLibrary := [], error := some "old" }, noEffects) :=
  absentName_cycle_noop ⟨200, "{}", none⟩ 5 _ (by decide) rfl

/-- C6 counterexample: a successful cycle with a present name does NOT clear a
previously stored error — the success path of `captureFrame` never calls
`setError(null)`, so the stored message survives the cycle. -/
theorem success_keeps_error_cex :
    responseOk ⟨200, "", some "Shock"⟩ = true ∧
    (captureFrameCycle ⟨200, "", some "Shock"⟩ 7
        { cardLibrary := [], error := some "previous failure" }).1.error ≠ none ∧
    (captureFrameCycle ⟨200, "", some "Shock"⟩ 7
        { cardLibrary := [], error := some "previous failure" }).1.error =
      some "previous failure" := by
  refine ⟨by decide, ?_, ?_⟩ <;> decide

/-- C6 amended: a successful cycle with a present name applies the library
mutation and the notification/sound side effects, but leaves any previously
stored error message unchanged (the code never clears `error`). -/
theorem success_preserves_error (resp : MatchResponse) (now : Nat) (st : ScanState)
    (n : String) (hok : responseOk resp = true) (hname : resp.name = some n)
    (hne : n ≠ "") :
    (captureFrameCycle resp now st).1.error = st.error ∧
    (captureFrameCycle resp now st).1.cardLibrary = recordMatch n now st.cardLibrary ∧
    (captureFrameCycle resp now st).2.soundPlayed = true ∧
    (captureFrameCycle resp now st).2.message = some (n ++ " added to library") := by
  simp [captureFrameCycle, hok, hname, hne]

/-- Witness for the amended C6 on a concrete successful response. -/
theorem success_preserves_error_witness :
    (captureFrameCycle ⟨200, "ok", some "Shock"⟩ 3
        { cardLibrary := [], error := some "boom" }).1.error = some "boom" :=
  (success_preserves_error ⟨200, "ok", some "Shock"⟩ 3
    { cardLibrary := [], error := some "boom" } "Shock" (by decide) rfl
    (by decide)).1

/-- Every request issued while the gate is scheduled to clear at `c` starts
no earlier than `c`. -/
lemma scanRun_le_start (dur : Nat → Nat) :
    ∀ (ticks : List Nat) (c k : Nat) (r : MatchRequest),
      r ∈ scanRun dur (some c) k ticks → c ≤ r.start := by
  intro ticks
  induction ticks with
  | nil => intro c k r hr; simp [scanRun] at hr
  | cons t ts ih =>
    intro c k r hr
    by_cases h : t < c
    · rw [scanRun, if_pos h] at hr
      exact ih c k r hr
    · rw [scanRun, if_neg h] at hr
      rcases List.mem_cons.mp hr with rfl | hr
      · show c ≤ t
        omega
      · have h2 := ih (t + dur k + cooldownMs) (k + 1) r hr
        omega

/-- Every issued request settles no earlier than it starts. -/
lemma scanRun_start_le_settle (dur : Nat → Nat) :
    ∀ (ticks : List Nat) (gate : Option Nat) (k : Nat) (r : MatchRequest),
      r ∈ scanRun dur gate k ticks → r.start ≤ r.settle := by
  intro ticks
  induction ticks with
  | nil => intro gate k r hr; cases gate <;> simp [scanRun] at hr
  | cons t ts ih =>
    intro gate k r hr
    cases gate with
    | none =>
      rw [scanRun] at hr
      rcases List.mem_cons.mp hr with rfl | hr
      · show t ≤ t + dur k
        omega
      · exact ih _ _ r hr
    | some c =>
      by_cases h : t < c
      · rw [scanRun, if_pos h] at hr
        exact ih _ _ r hr
      · rw [scanRun, if_neg h] at hr
        rcases List.mem_cons.mp hr with rfl | hr
        · show t ≤ t + dur k
          omega
        · exact ih _ _ r hr

/-- Any two requests issued by a run are separated by the full cooldown:
the later one starts only after the earlier one settled and the gate was
held for `cooldownMs` more. -/
lemma scanRun_pairwise (dur : Nat → Nat) :
    ∀ (ticks : List Nat) (gate : Option Nat) (k : Nat),
      (scanRun dur gate k ticks).Pairwise
        (fun r1 r2 => r1.settle + cooldownMs ≤ r2.start) := by
  intro ticks
  induction ticks with
  | nil => intro gate k; cases gate <;> simp [scanRun]
  | cons t ts ih =>
    intro gate k
    cases gate with
    | none =>
      rw [scanRun]
      refine List.Pairwise.cons (fun r hr => ?_) (ih _ _)
      exact scanRun_le_start dur ts (t + dur k + cooldownMs) (k + 1) r hr
    | some c =>
      by_cases h : t < c
      · rw [scanRun, if_pos h]
        exact ih _ _
      · rw [scanRun, if_neg h]
        refine List.Pairwise.cons (fun r hr => ?_) (ih _ _)
        exact scanRun_le_start dur ts (t + dur k + cooldownMs) (k + 1) r hr

/-- C3: a tick that fires while the in-flight gate is set submits nothing
(the run is unchanged); a tick that finds the gate clear issues one request
and schedules the gate to clear only `cooldownMs` after the request settles;
consequently any two issued requests are separated by at least the cooldown
beyond the earlier settle — so at most one request is outstanding at any
time — with poll period 2500 ms strictly shorter than the 3000 ms cooldown. -/
theorem scanLoop_gate_spec :
    (∀ (dur : Nat → Nat) (c k t : Nat) (ts : List Nat), t < c →
        scanRun dur (some c) k (t :: ts) = scanRun dur (some c) k ts) ∧
    (∀ (dur : Nat → Nat) (c k t : Nat) (ts : List Nat), ¬ t < c →
        scanRun dur (some c) k (t :: ts) =
          ⟨t, t + dur k⟩ ::
            scanRun dur (some (t + dur k + cooldownMs)) (k + 1) ts) ∧
    (∀ (dur : Nat → Nat) (gate : Option Nat) (k : Nat) (ticks : List Nat),
        (scanRun dur gate k ticks).Pairwise
          (fun r1 r2 => r1.settle + cooldownMs ≤ r2.start)) ∧
    (∀ (dur : Nat → Nat) (gate : Option Nat) (k : Nat) (ticks : List Nat),
        ∀ r ∈ scanRun dur gate k ticks, r.start ≤ r.settle) ∧
    pollPeriodMs = 2500 ∧ cooldownMs = 3000 ∧ pollPeriodMs < cooldownMs := by
  refine ⟨fun dur c k t ts h => ?_, fun dur c k t ts h => ?_,
    fun dur gate k ticks => scanRun_pairwise dur ticks gate k,
    fun dur gate k ticks r hr => scanRun_start_le_settle dur ticks gate k r hr,
    rfl, rfl, by decide⟩
  · rw [scanRun, if_pos h]
  · rw [scanRun, if_neg h]

/-- Witness for C3: a gated tick at 2500 (gate clears at 3000) is dropped,
and a concrete run has the cooldown-separation property. -/
theorem scanLoop_gate_spec_witness :
    scanRun (fun _ => 100) (some 3000) 1 [2500, 5000] =
      scanRun (fun _ => 100) (some 3000) 1 [5000] ∧
    (scanRun (fun _ => 0) none 0 [0, 2500, 5000]).Pairwise
      (fun r1 r2 => r1.settle + cooldownMs ≤ r2.start) :=
  ⟨scanLoop_gate_spec.1 (fun _ => 100) 3000 1 2500 [5000] (by decide),
   scanLoop_gate_spec.2.2.1 (fun _ => 0) none 0 [0, 2500, 5000]⟩

/-- C2: `adjustQuantity(id, delta)` sets the target entry's quantity to
`max(0, quantity + delta)`; the collection never retains a non-positive
quantity, and when the result is `0` the entry is gone afterward. -/
theorem updateQuantity_spec (lib : List Card) (i : String) (delta : Int) (e : Card)
    (hmem : e ∈ lib) (hid : e.id = i)
    (hids : lib.Pairwise (fun a b => a.id ≠ b.id)) :
    (∀ c ∈ updateQuantity i delta lib, 0 < c.quantity) ∧
    (0 < (max 0 ((e.quantity : Int) + delta)).toNat →
      ∃ c ∈ updateQuantity i delta lib,
        c.id = i ∧ c.quantity = (max 0 ((e.quantity : Int) + delta)).toNat) ∧
    ((max 0 ((e.quantity : Int) + delta)).toNat = 0 →
      ∀ c ∈ updateQuantity i delta lib, c.id ≠ i) := by
  refine ⟨?_, ?_, ?_⟩
  · intro c hc
    have h2 := (List.mem_filter.mp hc).2
    exact of_decide_eq_true h2
  · intro hpos
    refine ⟨{ e with quantity := (max 0 ((e.quantity : Int) + delta)).toNat }, ?_, hid, rfl⟩
    apply List.mem_filter.mpr
    constructor
    · have := List.mem_map_of_mem
        (fun c => if c.id = i then
            { c with quantity := (max 0 ((c.quantity : Int) + delta)).toNat }
          else c) hmem
      simpa [hid] using this
    · exact decide_eq_true hpos
  · intro h0 c hc hci
    obtain ⟨hcmap, hcpos⟩ := List.mem_filter.mp hc
    obtain ⟨a, ha, hfa⟩ := List.mem_map.mp hcmap
    by_cases hai : a.id = i
    · have hae : a = e := by
        by_contra hne
        have hsymm : Symmetric (fun x y : Card => x.id ≠ y.id) :=
          fun x y hxy h => hxy h.symm
        exact hids.forall hsymm ha hmem hne (hai.trans hid.symm)
      subst hae
      rw [if_pos hai] at hfa
      subst hfa
      have : (0 : Nat) < (max 0 ((a.quantity : Int) + delta)).toNat :=
        of_decide_eq_true hcpos
      omega
    · rw [if_neg hai] at hfa
      subst hfa
      exact hai hci

/-- Witness for C2: decrementing quantity 2 by 1 leaves the entry at 1. -/
theorem updateQuantity_spec_witness :
    updateQuantity "Shock-1" (-1) [⟨"Shock", 2, "Shock-1"⟩] = [⟨"Shock", 1, "Shock-1"⟩] ∧
    ∃ c ∈ updateQuantity "Shock-1" (-1) [⟨"Shock", 2, "Shock-1"⟩],
      c.id = "Shock-1" ∧ c.quantity = 1 :=
  ⟨by decide,
   (updateQuantity_spec [⟨"Shock", 2, "Shock-1"⟩] "Shock-1" (-1)
      ⟨"Shock", 2, "Shock-1"⟩ (by simp) rfl (by simp)).2.1 (by decide)⟩

/-- C7: after `remove(id)`, any `adjustQuantity(id, delta)` is a no-op on a
library whose quantities are all positive (every reachable library). -/
theorem remove_then_adjust_noop (lib : List Card) (i : String) (delta : Int)
    (hpos : ∀ c ∈ lib, 0 < c.quantity) :
    updateQuantity i delta (removeCard i lib) = removeCard i lib := by
  unfold updateQuantity
  have hmap : (removeCard i lib).map
      (fun c => if c.id = i then
          { c with quantity := (max 0 ((c.quantity : Int) + delta)).toNat }
        else c) = removeCard i lib := by
    have hcong : ∀ c ∈ removeCard i lib,
        (if c.id = i then
            { c with quantity := (max 0 ((c.quantity : Int) + delta)).toNat }
          else c) = id c := by
      intro c hc
      have hne : c.id ≠ i := of_decide_eq_true (List.mem_filter.mp hc).2
      simp [hne]
    rw [List.map_congr_left hcong, List.map_id]
  rw [hmap]
  apply List.filter_eq_self.mpr
  intro c hc
  exact decide_eq_true (hpos c (List.mem_filter.mp hc).1)

/-- Witness for C7 on a concrete two-entry library. -/
theorem remove_then_adjust_noop_witness :
    updateQuantity "s1" 5 (removeCard "s1" [⟨"Shock", 1, "s1"⟩, ⟨"Bolt", 2, "b2"⟩]) =
      removeCard "s1" [⟨"Shock", 1, "s1"⟩, ⟨"Bolt", 2, "b2"⟩] :=
  remove_then_adjust_noop [⟨"Shock", 1, "s1"⟩, ⟨"Bolt", 2, "b2"⟩] "s1" 5 (by decide)

lemma bumpCard_name (name : String) (c : Card) : (bumpCard name c).name = c.name := by
  unfold bumpCard
  split <;> rfl

lemma bumpCard_id (name : String) (c : Card) : (bumpCard name c).id = c.id := by
  unfold bumpCard
  split <;> rfl

lemma find?_map_bump (name s : String) (lib : List Card) :
    (lib.map (bumpCard name)).find? (fun c => decide (c.name = s)) =
      (lib.find? (fun c => decide (c.name = s))).map (bumpCard name) := by
  rw [List.find?_map]
  have hpred : ((fun c : Card => decide (c.name = s)) ∘ bumpCard name) =
      fun c : Card => decide (c.name = s) := by
    funext c
    simp [Function.comp, bumpCard_name]
  rw [hpred]

/-- `recordMatch` adds one to the tally of the matched name and leaves every
other name's tally unchanged. -/
lemma qtyOf_recordMatch (name : String) (now : Nat) (lib : List Card) (s : String) :
    qtyOf (recordMatch name now lib) s =
      if s = name then qtyOf lib s + 1 else qtyOf lib s := by
  unfold recordMatch
  cases hfind : lib.find? (fun c => decide (c.name = name)) with
  | none =>
    by_cases hs : s = name
    · subst hs
      simp [qtyOf, List.find?_append, hfind]
    · have hns : ¬(name = s) := fun h => hs h.symm
      simp only [qtyOf, List.find?_append]
      cases hfind2 : lib.find? (fun c => decide (c.name = s)) <;>
        simp [hfind2, hs, hns]
  | some c0 =>
    have hp0 := List.find?_some hfind
    have hc0 : c0.name = name := by simpa using hp0
    simp only [qtyOf, find?_map_bump]
    by_cases hs : s = name
    · subst hs
      rw [hfind]
      simp [bumpCard, hc0]
    · cases hfind2 : lib.find? (fun c => decide (c.name = s)) with
      | none => simp [hs]
      | some c1 =>
        have hp1 := List.find?_some hfind2
        have hc1 : c1.name = s := by simpa using hp1
        have : c1.name ≠ name := fun h => hs (hc1.symm.trans h)
        simp [bumpCard, this, hs]

/-- `recordMatch` keeps all quantities positive. -/
lemma recordMatch_pos (name : String) (now : Nat) (lib : List Card)
    (hpos : ∀ c ∈ lib, 0 < c.quantity) :
    ∀ c ∈ recordMatch name now lib, 0 < c.quantity := by
  unfold recordMatch
  cases hfind : lib.find? (fun c => decide (c.name = name)) with
  | none =>
    intro c hc
    rcases List.mem_append.mp hc with h | h
    · exact hpos c h
    · rcases List.mem_singleton.mp h with rfl
      exact Nat.zero_lt_one
  | some c0 =>
    intro c hc
    obtain ⟨a, ha, rfl⟩ := List.mem_map.mp hc
    unfold bumpCard
    split
    · exact Nat.succ_pos _
    · exact hpos a ha

/-- Quantities stay positive under every operation, so every reachable
library satisfies the positivity invariant assumed below. -/
lemma runOps_pos (ops : List LibOp) : ∀ c ∈ runOps ops, 0 < c.quantity := by
  have step : ∀ (lib : List Card) (op : LibOp), (∀ c ∈ lib, 0 < c.quantity) →
      ∀ c ∈ applyOp lib op, 0 < c.quantity := by
    intro lib op hpos
    cases op with
    | record name now => exact recordMatch_pos name now lib hpos
    | adjust i d =>
      intro c hc
      exact of_decide_eq_true (List.mem_filter.mp hc).2
    | drop i =>
      intro c hc
      exact hpos c (List.mem_filter.mp hc).1
  have main : ∀ (l : List LibOp) (lib : List Card), (∀ c ∈ lib, 0 < c.quantity) →
      ∀ c ∈ l.foldl applyOp lib, 0 < c.quantity := by
    intro l
    induction l with
    | nil => intro lib h; exact h
    | cons op ops ih => intro lib h; exact ih (applyOp lib op) (step lib op h)
  exact main ops [] (by simp)

/-- `recordMatch` keeps names pairwise distinct. -/
lemma recordMatch_names_pairwise (name : String) (now : Nat) (lib : List Card)
    (h : lib.Pairwise (fun a b => a.name ≠ b.name)) :
    (recordMatch name now lib).Pairwise (fun a b => a.name ≠ b.name) := by
  unfold recordMatch
  cases hfind : lib.find? (fun c => decide (c.name = name)) with
  | none =>
    rw [List.pairwise_append]
    refine ⟨h, List.pairwise_singleton _ _, ?_⟩
    intro a ha b hb
    rcases List.mem_singleton.mp hb with rfl
    have := List.find?_eq_none.mp hfind a ha
    simpa using this
  | some c0 =>
    rw [List.pairwise_map]
    exact h.imp (fun hab => by simpa [bumpCard_name] using hab)

/-- A positive tally for `s` is exactly the presence of an entry named `s`
(in a library with positive quantities). -/
lemma qtyOf_pos_iff (lib : List Card) (hpos : ∀ c ∈ lib, 0 < c.quantity)
    (s : String) : 0 < qtyOf lib s ↔ ∃ e ∈ lib, e.name = s := by
  unfold qtyOf
  cases hfind : lib.find? (fun c => decide (c.name = s)) with
  | none =>
    simp only [Nat.lt_irrefl, false_iff]
    rintro ⟨e, he, hname⟩
    have := List.find?_eq_none.mp hfind e he
    simp [hname] at this
  | some c =>
    have hpc := List.find?_some hfind
    constructor
    · intro _
      exact ⟨c, List.mem_of_find?_eq_some hfind, by simpa using hpc⟩
    · intro _
      exact hpos c (List.mem_of_find?_eq_some hfind)

lemma qtyOf_runMatches (l : List (String × Nat)) :
    ∀ (lib : List Card) (s : String),
      qtyOf (runMatches l lib) s =
        qtyOf lib s + l.countP (fun p => decide (p.1 = s)) := by
  induction l with
  | nil => intro lib s; simp [runMatches]
  | cons p ps ih =>
    intro lib s
    rw [show runMatches (p :: ps) lib = runMatches ps (recordMatch p.1 p.2 lib) from rfl]
    rw [ih, qtyOf_recordMatch]
    by_cases hs : s = p.1
    · rw [if_pos hs, List.countP_cons]
      simp only [hs]
      simp
      omega
    · rw [if_neg hs, List.countP_cons]
      have : ¬(p.1 = s) := fun h => hs h.symm
      simp [this]

lemma runMatches_pos (l : List (String × Nat)) :
    ∀ lib : List Card, (∀ c ∈ lib, 0 < c.quantity) →
      ∀ c ∈ runMatches l lib, 0 < c.quantity := by
  induction l with
  | nil => intro lib hpos; exact hpos
  | cons p ps ih =>
    intro lib hpos
    exact ih (recordMatch p.1 p.2 lib) (recordMatch_pos p.1 p.2 lib hpos)

lemma runMatches_names_pairwise (l : List (String × Nat)) :
    ∀ lib : List Card, lib.Pairwise (fun a b => a.name ≠ b.name) →
      (runMatches l lib).Pairwise (fun a b => a.name ≠ b.name) := by
  induction l with
  | nil => intro lib h; exact h
  | cons p ps ih =>
    intro lib h
    exact ih (recordMatch p.1 p.2 lib) (recordMatch_names_pairwise p.1 p.2 lib h)

/-- C1: after any sequence of `recordMatch(name)` calls on the empty library,
entry names are pairwise distinct, each name's quantity equals the number of
calls made with that name, and an entry exists exactly for the called names. -/
theorem recordMatch_counts (l : List (String × Nat)) :
    (runMatches l []).Pairwise (fun a b => a.name ≠ b.name) ∧
    (∀ s : String,
      qtyOf (runMatches l []) s = l.countP (fun p => decide (p.1 = s))) ∧
    (∀ s : String, (∃ e ∈ runMatches l [], e.name = s) ↔ ∃ p ∈ l, p.1 = s) := by
  refine ⟨runMatches_names_pairwise l [] (by simp), fun s => ?_, fun s => ?_⟩
  · rw [qtyOf_runMatches]
    simp [qtyOf]
  · rw [← qtyOf_pos_iff _ (runMatches_pos l [] (by simp)) s, qtyOf_runMatches]
    simp [qtyOf]

/-- Witness for C1: two matches of the same name give a single tally of 2. -/
theorem recordMatch_counts_witness :
    qtyOf (runMatches [("Lightning Bolt", 1), ("Lightning Bolt", 7)] [])
      "Lightning Bolt" = 2 := by
  rw [(recordMatch_counts [("Lightning Bolt", 1), ("Lightning Bolt", 7)]).2.1]
  decide

/-- C10: matching an existing name maps the library pointwise with a bump
that only touches the matching entry's quantity — every name, id, position
and non-matching entry is unchanged — while a new name appends a fresh
entry at the end, so collection (and CSV) order is first-match order. -/
theorem recordMatch_frame :
    (∀ (lib : List Card) (name : String) (t : Nat),
        (∃ e ∈ lib, e.name = name) →
        recordMatch name t lib = lib.map (bumpCard name)) ∧
    (∀ (name : String) (c : Card),
        (bumpCard name c).name = c.name ∧ (bumpCard name c).id = c.id ∧
        (c.name ≠ name → bumpCard name c = c) ∧
        (c.name = name → (bumpCard name c).quantity = c.quantity + 1)) ∧
    (∀ (lib : List Card) (name : String) (t : Nat),
        (∀ e ∈ lib, e.name ≠ name) →
        recordMatch name t lib =
          lib ++ [{ name := name, quantity := 1, id := mkCardId name t }]) := by
  refine ⟨?_, ?_, ?_⟩
  · rintro lib name t ⟨e, he, hname⟩
    have hsome : (lib.find? (fun c => decide (c.name = name))).isSome :=
      List.find?_isSome.mpr ⟨e, he, by simp [hname]⟩
    obtain ⟨c0, hc0⟩ := Option.isSome_iff_exists.mp hsome
    unfold recordMatch
    rw [hc0]
  · intro name c
    refine ⟨bumpCard_name name c, bumpCard_id name c, fun hne => ?_, fun heq => ?_⟩
    · unfold bumpCard
      rw [if_neg hne]
    · unfold bumpCard
      rw [if_pos heq]
  · intro lib name t habsent
    have hnone : lib.find? (fun c => decide (c.name = name)) = none :=
      List.find?_eq_none.mpr (fun e he => by simpa using habsent e he)
    unfold recordMatch
    rw [hnone]

/-- Witness for C10: bump-in-place for an existing name, append for a new one. -/
theorem recordMatch_frame_witness :
    recordMatch "Shock" 9 [⟨"Shock", 1, "Shock-3"⟩, ⟨"Bolt", 1, "Bolt-4"⟩] =
      [⟨"Shock", 2, "Shock-3"⟩, ⟨"Bolt", 1, "Bolt-4"⟩] ∧
    recordMatch "Giant" 9 [⟨"Shock", 1, "Shock-3"⟩] =
      [⟨"Shock", 1, "Shock-3"⟩, ⟨"Giant", 1, mkCardId "Giant" 9⟩] := by
  constructor
  · rw [recordMatch_frame.1 _ "Shock" 9 ⟨⟨"Shock", 1, "Shock-3"⟩, by simp, rfl⟩]
    decide
  · rw [recordMatch_frame.2.2 _ "Giant" 9 (by decide)]
    rfl

/-- Splitting a list at a separator absent from both right parts is
unambiguous. -/
lemma append_sep_inj {α : Type} (sep : α) :
    ∀ (l1 l2 r1 r2 : List α), sep ∉ r1 → sep ∉ r2 →
      l1 ++ sep :: r1 = l2 ++ sep :: r2 → l1 = l2 ∧ r1 = r2 := by
  intro l1
  induction l1 with
  | nil =>
    intro l2 r1 r2 h1 h2 heq
    cases l2 with
    | nil => simpa using heq
    | cons y ys =>
      rw [List.nil_append, List.cons_append, List.cons.injEq] at heq
      obtain ⟨rfl, hr⟩ := heq
      exact absurd (hr ▸ List.mem_append_right ys (List.mem_cons_self sep r2)) h1
  | cons x xs ih =>
    intro l2 r1 r2 h1 h2 heq
    cases l2 with
    | nil =>
      rw [List.nil_append, List.cons_append, List.cons.injEq] at heq
      obtain ⟨hx, hr⟩ := heq
      exact absurd (hr ▸ List.mem_append_right xs (List.mem_cons_self sep r1)) h2
    | cons y ys =>
      rw [List.cons_append, List.cons_append, List.cons.injEq] at heq
      obtain ⟨rfl, hr⟩ := heq
      obtain ⟨hl, hrr⟩ := ih ys r1 r2 h1 h2 hr
      exact ⟨by rw [hl], hrr⟩

/-- No decimal digit character is a dash. -/
lemma digitChar_ne_dash (m : Nat) : Nat.digitChar m ≠ '-' := by
  intro h
  unfold Nat.digitChar at h
  by_cases h0 : m = 0
  · rw [if_pos h0] at h; exact absurd h (by decide)
  rw [if_neg h0] at h
  by_cases h1 : m = 1
  · rw [if_pos h1] at h; exact absurd h (by decide)
  rw [if_neg h1] at h
  by_cases h2 : m = 2
  · rw [if_pos h2] at h; exact absurd h (by decide)
  rw [if_neg h2] at h
  by_cases h3 : m = 3
  · rw [if_pos h3] at h; exact absurd h (by decide)
  rw [if_neg h3] at h
  by_cases h4 : m = 4
  · rw [if_pos h4] at h; exact absurd h (by decide)
  rw [if_neg h4] at h
  by_cases h5 : m = 5
  · rw [if_pos h5] at h; exact absurd h (by decide)
  rw [if_neg h5] at h
  by_cases h6 : m = 6
  · rw [if_pos h6] at h; exact absurd h (by decide)
  rw [if_neg h6] at h
  by_cases h7 : m = 7
  · rw [if_pos h7] at h; exact absurd h (by decide)
  rw [if_neg h7] at h
  by_cases h8 : m = 8
  · rw [if_pos h8] at h; exact absurd h (by decide)
  rw [if_neg h8] at h
  by_cases h9 : m = 9
  · rw [if_pos h9] at h; exact absurd h (by decide)
  rw [if_neg h9] at h
  by_cases ha : m = 10
  · rw [if_pos ha] at h; exact absurd h (by decide)
  rw [if_neg ha] at h
  by_cases hb : m = 11
  · rw [if_pos hb] at h; exact absurd h (by decide)
  rw [if_neg hb] at h
  by_cases hc : m = 12
  · rw [if_pos hc] at h; exact absurd h (by decide)
  rw [if_neg hc] at h
  by_cases hd : m = 13
  · rw [if_pos hd] at h; exact absurd h (by decide)
  rw [if_neg hd] at h
  by_cases he : m = 14
  · rw [if_pos he] at h; exact absurd h (by decide)
  rw [if_neg he] at h
  by_cases hf : m = 15
  · rw [if_pos hf] at h; exact absurd h (by decide)
  rw [if_neg hf] at h
  exact absurd h (by decide)

/-- The characters produced by `Nat.toDigitsCore` over base 10 never include
a dash (beyond those already in the accumulator). -/
lemma toDigitsCore_no_dash :
    ∀ (f n : Nat) (ds : List Char), '-' ∉ ds → '-' ∉ Nat.toDigitsCore 10 f n ds := by
  intro f
  induction f with
  | zero =>
    intro n ds h
    simpa [Nat.toDigitsCore] using h
  | succ f ih =>
    intro n ds h
    rw [Nat.toDigitsCore]
    split
    · intro hmem
      rcases List.mem_cons.mp hmem with heq | hmem2
      · exact digitChar_ne_dash (n % 10) heq.symm
      · exact h hmem2
    · refine ih (n / 10) (Nat.digitChar (n % 10) :: ds) ?_
      intro hmem
      rcases List.mem_cons.mp hmem with heq | hmem2
      · exact digitChar_ne_dash (n % 10) heq.symm
      · exact h hmem2

/-- The decimal rendering of a natural number contains no dash. -/
lemma repr_no_dash (n : Nat) : '-' ∉ (Nat.repr n).data := by
  show '-' ∉ (List.asString (Nat.toDigitsCore 10 (n + 1) n [])).data
  have : (List.asString (Nat.toDigitsCore 10 (n + 1) n [])).data =
      Nat.toDigitsCore 10 (n + 1) n [] := rfl
  rw [this]
  exact toDigitsCore_no_dash (n + 1) n [] (by simp)

/-- Two generated card ids agree only if the names agree: the timestamp part
contains no dash, so the split at the last dash is unambiguous. -/
lemma mkCardId_inj_name {n1 n2 : String} {t1 t2 : Nat}
    (h : mkCardId n1 t1 = mkCardId n2 t2) : n1 = n2 := by
  unfold mkCardId at h
  have hdata : n1.data ++ '-' :: (Nat.repr t1).data =
      n2.data ++ '-' :: (Nat.repr t2).data := by
    have h2 := congrArg String.data h
    simpa [String.data_append] using h2
  have hsplit := append_sep_inj '-' n1.data n2.data _ _
    (repr_no_dash t1) (repr_no_dash t2) hdata
  exact String.ext hsplit.1

/-- The library invariant behind id uniqueness: names are pairwise distinct
and every id has the generated `name-timestamp` shape. -/
def GoodLib (lib : List Card) : Prop :=
  lib.Pairwise (fun a b => a.name ≠ b.name) ∧
  ∀ c ∈ lib, ∃ t, c.id = mkCardId c.name t

/-- Every entry of `updateQuantity`'s result keeps the id and name of some
source entry. -/
lemma updateQuantity_mem_src (i : String) (d : Int) (lib : List Card) :
    ∀ c ∈ updateQuantity i d lib, ∃ e ∈ lib, c.id = e.id ∧ c.name = e.name := by
  intro c hc
  obtain ⟨hcmap, _⟩ := List.mem_filter.mp hc
  obtain ⟨a, ha, hfa⟩ := List.mem_map.mp hcmap
  refine ⟨a, ha, ?_⟩
  subst hfa
  constructor <;> (split <;> rfl)

lemma goodLib_record (name : String) (now : Nat) (lib : List Card)
    (h : GoodLib lib) : GoodLib (recordMatch name now lib) := by
  obtain ⟨hnames, hshape⟩ := h
  refine ⟨recordMatch_names_pairwise name now lib hnames, ?_⟩
  intro c hc
  unfold recordMatch at hc
  cases hfind : lib.find? (fun c => decide (c.name = name)) with
  | none =>
    rw [hfind] at hc
    rcases List.mem_append.mp hc with hmem | hmem
    · exact hshape c hmem
    · rcases List.mem_singleton.mp hmem with rfl
      exact ⟨now, rfl⟩
  | some c0 =>
    rw [hfind] at hc
    obtain ⟨a, ha, rfl⟩ := List.mem_map.mp hc
    obtain ⟨t, ht⟩ := hshape a ha
    exact ⟨t, by rw [bumpCard_id, bumpCard_name, ht]⟩

lemma goodLib_update (i : String) (d : Int) (lib : List Card)
    (h : GoodLib lib) : GoodLib (updateQuantity i d lib) := by
  obtain ⟨hnames, hshape⟩ := h
  constructor
  · have hmapped : (lib.map (fun c =>
        if c.id = i then
          { c with quantity := (max 0 ((c.quantity : Int) + d)).toNat }
        else c)).Pairwise (fun a b => a.name ≠ b.name) := by
      rw [List.pairwise_map]
      refine hnames.imp ?_
      intro a b hab
      have ha : ∀ c : Card, (if c.id = i then
          { c with quantity := (max 0 ((c.quantity : Int) + d)).toNat }
        else c).name = c.name := fun c => by split <;> rfl
      rw [ha a, ha b]
      exact hab
    exact hmapped.sublist (List.filter_sublist _)
  · intro c hc
    obtain ⟨e, he, hid, hname⟩ := updateQuantity_mem_src i d lib c hc
    obtain ⟨t, ht⟩ := hshape e he
    exact ⟨t, by rw [hid, hname, ht]⟩

lemma goodLib_remove (i : String) (lib : List Card)
    (h : GoodLib lib) : GoodLib (removeCard i lib) := by
  obtain ⟨hnames, hshape⟩ := h
  exact ⟨hnames.sublist (List.filter_sublist _),
    fun c hc => hshape c (List.mem_filter.mp hc).1⟩

lemma goodLib_foldl (ops : List LibOp) :
    ∀ lib : List Card, GoodLib lib → GoodLib (ops.foldl applyOp lib) := by
  induction ops with
  | nil => intro lib h; exact h
  | cons op ops ih =>
    intro lib h
    refine ih (applyOp lib op) ?_
    cases op with
    | record name now => exact goodLib_record name now lib h
    | adjust i d => exact goodLib_update i d lib h
    | drop i => exact goodLib_remove i lib h

lemma goodLib_ids {lib : List Card} (h : GoodLib lib) :
    lib.Pairwise (fun a b => a.id ≠ b.id) := by
  obtain ⟨hnames, hshape⟩ := h
  refine hnames.imp_of_mem ?_
  intro a b ha hb hname heq
  obtain ⟨t1, h1⟩ := hshape a ha
  obtain ⟨t2, h2⟩ := hshape b hb
  rw [h1, h2] at heq
  exact hname (mkCardId_inj_name heq)

/-- C9: after any operation sequence from the empty library the ids are
pairwise distinct; distinct names created at the same tick get distinct ids;
and neither a repeat match (`bumpCard`) nor `adjustQuantity` ever changes an
entry's id. -/
theorem cardIds_unique :
    (∀ ops : List LibOp, (runOps ops).Pairwise (fun a b => a.id ≠ b.id)) ∧
    (∀ (n1 n2 : String) (t : Nat), n1 ≠ n2 → mkCardId n1 t ≠ mkCardId n2 t) ∧
    (∀ (name : String) (c : Card), (bumpCard name c).id = c.id) ∧
    (∀ (lib : List Card) (i : String) (d : Int),
        ∀ c ∈ updateQuantity i d lib, ∃ e ∈ lib, c.id = e.id ∧ c.name = e.name) := by
  refine ⟨?_, ?_, bumpCard_id, fun lib i d => updateQuantity_mem_src i d lib⟩
  · intro ops
    exact goodLib_ids (goodLib_foldl ops [] ⟨List.Pairwise.nil, by simp⟩)
  · intro n1 n2 t hne h
    exact hne (mkCardId_inj_name h)

/-- Witness for C9: two same-tick creations have distinct ids. -/
theorem cardIds_unique_witness :
    mkCardId "Shock" 5 ≠ mkCardId "Bolt" 5 ∧
    (runOps [.record "Shock" 5, .record "Bolt" 5]).Pairwise
      (fun a b => a.id ≠ b.id) :=
  ⟨cardIds_unique.2.1 "Shock" "Bolt" 5 (by decide),
   cardIds_unique.1 [.record "Shock" 5, .record "Bolt" 5]⟩

end MtgScanner
